import Mathlib

/-!
A shallow embedding of the DriveSync Tube room-coordination service
(backend `websocket.ts` message handler, the durable store schema, and the
client reconnection hook `useSocket.ts`), together with theorems checking
the natural-language specification against it.

Conventions of the embedding:
* JS `Map`s become association lists (`alookup` / `aset` / `aerase`),
  mirroring `Map.get` / `Map.set` / `Map.delete`.
* `Date.now()` becomes an explicit `now : Int` parameter (milliseconds).
* The DB-generated UUID of a created video becomes an explicit `freshId`
  parameter.
* `currentTime` (a JS number used only for storage and comparison with 0)
  becomes `Rat`.
* Network sends become an explicit list of `Effect`s, in the order the
  code issues them; `broadcastAll` / `broadcast` are resolved to the
  per-client sends the code performs.
-/

namespace DriveSync

/-- A connected client (`Client` in `websocket.ts`); `wsId` models the
identity of the underlying `WSContext` object. -/
structure Client where
  wsId : Nat
  userId : String
  role : Bool  -- true = host, false = guest
  deriving Repr, DecidableEq

/-- In-memory playback state of one room (`RoomState` in `websocket.ts`). -/
structure RoomState where
  currentVideoId : Option String
  isPlaying : Bool
  currentTime : Rat
  deriving Repr, DecidableEq

/-- A row of the durable `Video` table. -/
structure Video where
  id : String
  youtubeId : String
  title : String
  thumbnail : String
  addedBy : String
  isPlayed : Bool
  order : Int
  roomId : String
  deriving Repr, DecidableEq

/-- A row of the durable `Room` table. -/
structure DbRoom where
  id : String
  code : String
  currentVideoId : Option String
  isPlaying : Bool
  currentTime : Rat
  deriving Repr, DecidableEq

/-- The durable store (the two Prisma tables). -/
structure Db where
  rooms : List DbRoom
  videos : List Video
  deriving Repr, DecidableEq

/-- The payload of an `ADD_VIDEO` message. -/
structure VideoInput where
  youtubeId : String
  title : String
  thumbnail : String
  deriving Repr, DecidableEq

/-- Client → server messages.  The wire type (`WSMessage` in
`types/index.ts`) includes `ADD_VIDEOS`; the server's `switch` has no case
for it, so it falls to the `default` branch. -/
inductive Msg where
  | join (roomId userId : String) (role : Bool)
  | addVideo (roomId : String) (video : VideoInput) (userId : String)
  | play (roomId : String)
  | pause (roomId : String)
  | syncTime (roomId : String) (currentTime : Rat) (isPlaying : Bool)
  | nextVideo (roomId : String)
  | removeVideo (roomId videoId : String)
  | selectVideo (roomId youtubeId : String)
  | addVideos (roomId : String) (videos : List VideoInput) (userId : String)
  | ping
  deriving Repr, DecidableEq

/-- Server → client messages (`WSServerMessage`). -/
inductive OutMsg where
  | error (message : String)
  | pong
  | syncState (currentVideoId : Option String) (isPlaying : Bool)
      (currentTime : Rat) (playlist : List Video)
  | playlistUpdate (playlist : List Video)
  | playCmd (videoId : Option String) (currentTime : Rat)
  | pauseCmd
  | syncTimeMsg (currentTime : Rat) (isPlaying : Bool)
  | playVideo (videoId : Option String)
  deriving Repr, DecidableEq

/-- One network send performed by the server: payload `msg` to the
connection identified by `wsId`. -/
structure Effect where
  wsId : Nat
  msg : OutMsg
  deriving Repr, DecidableEq

/-- The in-memory state of the server: the four module-level `Map`s of
`websocket.ts`. -/
structure ServerState where
  rooms : List (String × List Client)
  roomStates : List (String × RoomState)
  lastDbWrite : List (String × Int)
  playPauseCooldown : List (String × Int)
  deriving Repr, DecidableEq

def SYNC_THROTTLE_MS : Int := 5000
def PLAY_PAUSE_COOLDOWN_MS : Int := 3000

-- -------------------------------------------------------------------
-- Association-list operations mirroring the JS `Map` API
-- -------------------------------------------------------------------

/-- `Map.get` -/
def alookup {α : Type} : List (String × α) → String → Option α
  | [], _ => none
  | (k', v) :: rest, k => if k' = k then some v else alookup rest k

/-- `Map.set`: update in place if present, else append. -/
def aset {α : Type} : List (String × α) → String → α → List (String × α)
  | [], k, v => [(k, v)]
  | (k', v') :: rest, k, v =>
      if k' = k then (k, v) :: rest else (k', v') :: aset rest k v

/-- `Map.delete`: remove the (unique) entry for the key. -/
def aerase {α : Type} : List (String × α) → String → List (String × α)
  | [], _ => []
  | (k', v') :: rest, k => if k' = k then rest else (k', v') :: aerase rest k

-- -------------------------------------------------------------------
-- Small helpers from the source
-- -------------------------------------------------------------------

/-- JS truthiness test `!state.currentVideoId`: true for `null` and `""`. -/
def jsFalsy : Option String → Bool
  | none => true
  | some s => s = ""

/-- Insert a video into a list sorted ascending by `order`. -/
def insertByOrder (v : Video) : List Video → List Video
  | [] => [v]
  | w :: ws => if v.order ≤ w.order then v :: w :: ws else w :: insertByOrder v ws

/-- Sort a list of videos ascending by `order` (models
`orderBy: \x7b order: "asc" \x7d`). -/
def sortByOrder : List Video → List Video
  | [] => []
  | v :: vs => insertByOrder v (sortByOrder vs)

/-- `getPlaylist`: the room's videos ordered by `order` ascending. -/
def getPlaylist (db : Db) (roomDbId : String) : List Video :=
  sortByOrder (db.videos.filter (fun v => decide (v.roomId = roomDbId)))

/-- `prisma.room.findUnique(\x7b where: \x7b code \x7d \x7d)` -/
def findRoomByCode (db : Db) (code : String) : Option DbRoom :=
  db.rooms.find? (fun r => decide (r.code = code))

/-- Maximal `order` among a list of videos (`findFirst` with
`orderBy: \x7b order: "desc" \x7d`, keeping only the `order` field). -/
def maxOrder : List Video → Option Int
  | [] => none
  | v :: vs =>
      match maxOrder vs with
      | none => some v.order
      | some m => some (max v.order m)

/-- JS `Array.prototype.findIndex`: index of the first element satisfying
`p`, or `-1`. -/
def findIndexJs {α : Type} (p : α → Bool) : List α → Int
  | [] => -1
  | x :: xs =>
      if p x then 0
      else
        let r := findIndexJs p xs
        if r = -1 then -1 else r + 1

/-- Remove the first client with the given `userId` (the duplicate-eviction
loop in the `JOIN` case). -/
def removeFirstUser (userId : String) : List Client → List Client
  | [] => []
  | c :: cs => if c.userId = userId then cs else c :: removeFirstUser userId cs

/-- Remove the first client with the given `wsId` (the deletion in
`handleDisconnect`). -/
def removeFirstWs (wsId : Nat) : List Client → List Client
  | [] => []
  | c :: cs => if c.wsId = wsId then cs else c :: removeFirstWs wsId cs

-- -------------------------------------------------------------------
-- Send / broadcast helpers
-- -------------------------------------------------------------------

/-- `send(ws, data)` -/
def sendFx (ws : Nat) (m : OutMsg) : List Effect := [⟨ws, m⟩]

/-- `broadcastAll(roomId, data)`: one send per client of the room, in set
order; nothing when the room has no client entry. -/
def broadcastAllFx (st : ServerState) (roomCode : String) (m : OutMsg) :
    List Effect :=
  match alookup st.rooms roomCode with
  | none => []
  | some clients => clients.map (fun c => ⟨c.wsId, m⟩)

/-- `broadcast(roomId, data, senderWs)`: like `broadcastAll` but skipping
the sender's connection. -/
def broadcastExceptFx (st : ServerState) (roomCode : String) (sender : Nat)
    (m : OutMsg) : List Effect :=
  match alookup st.rooms roomCode with
  | none => []
  | some clients =>
      (clients.filter (fun c => decide (c.wsId ≠ sender))).map
        (fun c => ⟨c.wsId, m⟩)

-- -------------------------------------------------------------------
-- DB helpers from the source
-- -------------------------------------------------------------------

/-- `persistRoomState`: write the in-memory state of `roomCode` to the
room's durable row; a no-op when either side is missing. -/
def persistRoomState (roomCode : String) (st : ServerState) (db : Db) : Db :=
  match alookup st.roomStates roomCode with
  | none => db
  | some state =>
      match findRoomByCode db roomCode with
      | none => db
      | some room =>
          { db with
            rooms := db.rooms.map (fun r =>
              if r.id = room.id then
                { r with
                  currentVideoId := state.currentVideoId
                  isPlaying := state.isPlaying
                  currentTime := state.currentTime }
              else r) }

/-- `buildSyncState` -/
def buildSyncState (roomCode : String) (st : ServerState) (db : Db) : OutMsg :=
  let state := (alookup st.roomStates roomCode).getD ⟨none, false, 0⟩
  let playlist :=
    match findRoomByCode db roomCode with
    | none => []
    | some room => getPlaylist db room.id
  .syncState state.currentVideoId state.isPlaying state.currentTime playlist

-- -------------------------------------------------------------------
-- The message handler
-- -------------------------------------------------------------------

/-- `handleMessage` from `websocket.ts`.  `ws` is the sender's connection,
`now` the value of `Date.now()` during this invocation, `freshId` the DB id
a `prisma.video.create` would assign.  Returns the new in-memory state, the
new durable store, and the sends performed, in order. -/
def handleMessage (ws : Nat) (msg : Msg) (now : Int) (freshId : String)
    (st : ServerState) (db : Db) : ServerState × Db × List Effect :=
  match msg with
  | .ping => (st, db, sendFx ws .pong)
  | .join roomId userId role =>
      match findRoomByCode db roomId with
      | none => (st, db, sendFx ws (.error "Room not found"))
      | some room =>
          let st1 :=
            if (alookup st.rooms roomId).isSome then st
            else { st with rooms := aset st.rooms roomId [] }
          let st2 :=
            if (alookup st1.roomStates roomId).isSome then st1
            else
              { st1 with
                roomStates := aset st1.roomStates roomId
                  ⟨room.currentVideoId, room.isPlaying, room.currentTime⟩ }
          let clientSet := (alookup st2.rooms roomId).getD []
          let clientSet' := removeFirstUser userId clientSet ++ [⟨ws, userId, role⟩]
          let st3 := { st2 with rooms := aset st2.rooms roomId clientSet' }
          (st3, db, sendFx ws (buildSyncState roomId st3 db))
  | .addVideo roomId video userId =>
      match findRoomByCode db roomId with
      | none => (st, db, sendFx ws (.error "Room not found"))
      | some room =>
          let nextOrder :=
            match maxOrder (db.videos.filter (fun v => decide (v.roomId = room.id))) with
            | none => 0
            | some m => m + 1
          let created : Video :=
            ⟨freshId, video.youtubeId, video.title, video.thumbnail, userId,
              false, nextOrder, room.id⟩
          let db1 := { db with videos := db.videos ++ [created] }
          match alookup st.roomStates roomId with
          | some state =>
              if jsFalsy state.currentVideoId then
                let st1 := { st with
                  roomStates := aset st.roomStates roomId
                    ⟨some created.youtubeId, true, 0⟩ }
                let db2 := persistRoomState roomId st1 db1
                (st1, db2,
                  broadcastAllFx st1 roomId (.playVideo (some created.youtubeId)) ++
                  broadcastAllFx st1 roomId (.playlistUpdate (getPlaylist db2 room.id)))
              else
                (st, db1,
                  broadcastAllFx st roomId (.playlistUpdate (getPlaylist db1 room.id)))
          | none =>
              (st, db1,
                broadcastAllFx st roomId (.playlistUpdate (getPlaylist db1 room.id)))
  | .play roomId =>
      let st1 :=
        match alookup st.roomStates roomId with
        | some state =>
            let ns := { state with isPlaying := true }
            { st with roomStates := aset st.roomStates roomId ns }
        | none => st
      let st2 := { st1 with playPauseCooldown := aset st1.playPauseCooldown roomId now }
      let state' := alookup st2.roomStates roomId
      (st2, db,
        broadcastAllFx st2 roomId
          (.playCmd (state'.bind (·.currentVideoId))
            ((state'.map (·.currentTime)).getD 0)))
  | .pause roomId =>
      let st1 :=
        match alookup st.roomStates roomId with
        | some state =>
            let ns := { state with isPlaying := false }
            { st with roomStates := aset st.roomStates roomId ns }
        | none => st
      let st2 := { st1 with playPauseCooldown := aset st1.playPauseCooldown roomId now }
      (st2, db, broadcastAllFx st2 roomId .pauseCmd)
  | .syncTime roomId t p =>
      let cooldownAt := (alookup st.playPauseCooldown roomId).getD 0
      let inCooldown := now - cooldownAt < PLAY_PAUSE_COOLDOWN_MS
      let st1 :=
        match alookup st.roomStates roomId with
        | some state =>
            let state1 := { state with currentTime := t }
            let state2 := if inCooldown then state1 else { state1 with isPlaying := p }
            { st with roomStates := aset st.roomStates roomId state2 }
        | none => st
      let lastWrite := (alookup st1.lastDbWrite roomId).getD 0
      let throttled : ServerState × Db :=
        if now - lastWrite ≥ SYNC_THROTTLE_MS then
          let st' := { st1 with lastDbWrite := aset st1.lastDbWrite roomId now }
          (st', persistRoomState roomId st' db)
        else (st1, db)
      let st2 := throttled.1
      let state' := alookup st2.roomStates roomId
      (st2, throttled.2,
        broadcastExceptFx st2 roomId ws
          (.syncTimeMsg ((state'.map (·.currentTime)).getD t)
            ((state'.map (·.isPlaying)).getD p)))
  | .nextVideo roomId =>
      match findRoomByCode db roomId with
      | none => (st, db, [])
      | some room =>
          let state? := alookup st.roomStates roomId
          let allVideos := getPlaylist db room.id
          let cur : Option String := state?.bind (·.currentVideoId)
          let currentIndex : Int :=
            findIndexJs (fun v => decide (cur = some v.youtubeId)) allVideos
          let nextVid : Option Video := allVideos[(currentIndex + 1).toNat]?
          let step : ServerState × Db × List Effect :=
            match nextVid, state? with
            | some nv, some _ =>
                let st1 := { st with
                  roomStates := aset st.roomStates roomId ⟨some nv.youtubeId, true, 0⟩ }
                let db1 := persistRoomState roomId st1 db
                (st1, db1, broadcastAllFx st1 roomId (.playVideo (some nv.youtubeId)))
            | none, some _ =>
                let st1 := { st with
                  roomStates := aset st.roomStates roomId ⟨none, false, 0⟩ }
                let db1 := persistRoomState roomId st1 db
                (st1, db1, broadcastAllFx st1 roomId (.playVideo none))
            | _, none => (st, db, [])
          (step.1, step.2.1,
            step.2.2 ++
              broadcastAllFx step.1 roomId
                (.playlistUpdate (getPlaylist step.2.1 room.id)))
  | .removeVideo roomId videoId =>
      match findRoomByCode db roomId with
      | none => (st, db, [])
      | some room =>
          if db.videos.any (fun v => decide (v.id = videoId)) then
            let db1 := { db with
              videos := db.videos.filter (fun v => decide (v.id ≠ videoId)) }
            (st, db1,
              broadcastAllFx st roomId (.playlistUpdate (getPlaylist db1 room.id)))
          else
            (st, db, sendFx ws (.error "Video not found"))
  | .selectVideo roomId youtubeId =>
      let step : ServerState × Db :=
        match alookup st.roomStates roomId with
        | some _ =>
            let st1 := { st with
              roomStates := aset st.roomStates roomId ⟨some youtubeId, true, 0⟩ }
            (st1, persistRoomState roomId st1 db)
        | none => (st, db)
      (step.1, step.2,
        broadcastAllFx step.1 roomId (.playVideo (some youtubeId)))
  | .addVideos _ _ _ =>
      -- falls through to the `default` branch of the `switch`
      (st, db, sendFx ws (.error "Unknown message type"))

-- -------------------------------------------------------------------
-- The disconnect handler
-- -------------------------------------------------------------------

/-- The room (in map iteration order) containing a client on connection
`wsId`, if any. -/
def findClientRoom (wsId : Nat) : List (String × List Client) → Option String
  | [] => none
  | (code, cs) :: rest =>
      if cs.any (fun c => decide (c.wsId = wsId)) then some code
      else findClientRoom wsId rest

/-- `handleDisconnect` from `websocket.ts`: remove the closing client; when
its room becomes empty, delete the room's client set, its in-memory
playback state and its durable-write throttle timestamp. -/
def handleDisconnect (wsId : Nat) (st : ServerState) : ServerState :=
  match findClientRoom wsId st.rooms with
  | none => st
  | some roomCode =>
      let clients := (alookup st.rooms roomCode).getD []
      let clients' := removeFirstWs wsId clients
      if clients'.length = 0 then
        { st with
          rooms := aerase st.rooms roomCode
          roomStates := aerase st.roomStates roomCode
          lastDbWrite := aerase st.lastDbWrite roomCode }
      else { st with rooms := aset st.rooms roomCode clients' }

-- -------------------------------------------------------------------
-- Client reconnection backoff (`useSocket.ts`)
-- -------------------------------------------------------------------

def INITIAL_RETRY_DELAY : Nat := 1000
def MAX_RETRY_DELAY : Nat := 30000

/-- The delay `scheduleRetry` computes from the current value of
`retryCountRef`. -/
def scheduleRetryDelay (retryCount : Nat) : Nat :=
  min (INITIAL_RETRY_DELAY * 2 ^ retryCount) MAX_RETRY_DELAY

/-- Events that touch `retryCountRef`: a successful open (`ws.onopen`)
resets it to 0; the retry timer firing increments it. -/
inductive SockEvent where
  | opened
  | retryFired
  deriving Repr, DecidableEq

/-- One step of `retryCountRef`. -/
def stepRetryCount (n : Nat) : SockEvent → Nat
  | .opened => 0
  | .retryFired => n + 1

/-- `retryCountRef` after a sequence of events. -/
def runRetryCount (init : Nat) (evs : List SockEvent) : Nat :=
  evs.foldl stepRetryCount init

end DriveSync

namespace DriveSync

-- -------------------------------------------------------------------
-- Lemmas about the Map embedding
-- -------------------------------------------------------------------

theorem alookup_aset {α : Type} (l : List (String × α)) (k k' : String) (v : α) :
    alookup (aset l k v) k' = if k' = k then some v else alookup l k' := by
  induction l with
  | nil =>
      simp only [aset, alookup]
      by_cases h : k' = k
      · subst h; simp
      · simp [h, Ne.symm h]
  | cons hd tl ih =>
      obtain ⟨k₀, v₀⟩ := hd
      simp only [aset]
      by_cases h0 : k₀ = k
      · subst h0
        simp only [if_pos rfl, alookup]
        by_cases h : k₀ = k'
        · subst h; simp
        · simp [h, Ne.symm h]
      · simp only [if_neg h0, alookup, ih]
        by_cases h1 : k₀ = k'
        · subst h1
          simp [h0]
        · simp [h1]

theorem alookup_aset_self {α : Type} (l : List (String × α)) (k : String) (v : α) :
    alookup (aset l k v) k = some v := by
  simp [alookup_aset]

theorem alookup_eq_none_of_not_mem {α : Type} (l : List (String × α)) (k : String)
    (h : k ∉ l.map Prod.fst) : alookup l k = none := by
  induction l with
  | nil => rfl
  | cons hd tl ih =>
      obtain ⟨k₀, v₀⟩ := hd
      simp only [List.map_cons, List.mem_cons] at h
      push_neg at h
      simp [alookup, Ne.symm h.1, ih h.2]

theorem alookup_aerase_self {α : Type} (l : List (String × α)) (k : String)
    (h : (l.map Prod.fst).Nodup) : alookup (aerase l k) k = none := by
  induction l with
  | nil => rfl
  | cons hd tl ih =>
      obtain ⟨k₀, v₀⟩ := hd
      simp only [List.map_cons, List.nodup_cons] at h
      by_cases h0 : k₀ = k
      · subst h0
        simpa [aerase] using alookup_eq_none_of_not_mem tl k₀ h.1
      · simp [aerase, alookup, h0, ih h.2]

theorem isSome_alookup_aset {α : Type} (l : List (String × α)) (k k' : String) (v : α)
    (h : (alookup l k).isSome) : (alookup (aset l k' v) k).isSome := by
  rw [alookup_aset]
  by_cases hk : k = k' <;> simp [hk, h]

-- -------------------------------------------------------------------
-- Lemmas about broadcast effects
-- -------------------------------------------------------------------

theorem msg_of_mem_sendFx {ws : Nat} {m : OutMsg} {e : Effect}
    (h : e ∈ sendFx ws m) : e.msg = m := by
  simp only [sendFx, List.mem_singleton] at h
  subst h; rfl

theorem msg_of_mem_broadcastAllFx {st : ServerState} {rc : String} {m : OutMsg}
    {e : Effect} (h : e ∈ broadcastAllFx st rc m) : e.msg = m := by
  unfold broadcastAllFx at h
  cases halo : alookup st.rooms rc with
  | none => rw [halo] at h; simp at h
  | some clients =>
      rw [halo] at h
      simp only [List.mem_map] at h
      obtain ⟨c, _, rfl⟩ := h
      rfl

theorem msg_of_mem_broadcastExceptFx {st : ServerState} {rc : String}
    {sender : Nat} {m : OutMsg} {e : Effect}
    (h : e ∈ broadcastExceptFx st rc sender m) : e.msg = m := by
  unfold broadcastExceptFx at h
  cases halo : alookup st.rooms rc with
  | none => rw [halo] at h; simp at h
  | some clients =>
      rw [halo] at h
      simp only [List.mem_map] at h
      obtain ⟨c, _, rfl⟩ := h
      rfl

-- -------------------------------------------------------------------
-- Lemmas about maxOrder
-- -------------------------------------------------------------------

theorem le_of_mem_maxOrder {l : List Video} {m : Int} (hm : maxOrder l = some m) :
    ∀ v ∈ l, v.order ≤ m := by
  induction l generalizing m with
  | nil => simp [maxOrder] at hm
  | cons hd tl ih =>
      intro v hv
      simp only [maxOrder] at hm
      cases htl : maxOrder tl with
      | none =>
          simp only [htl, Option.some.injEq] at hm
          subst hm
          rcases List.mem_cons.mp hv with rfl | hv'
          · exact le_refl _
          · cases tl with
            | nil => simp at hv'
            | cons a as =>
                simp only [maxOrder] at htl
                cases has : maxOrder as <;> simp [has] at htl
      | some m' =>
          simp only [htl, Option.some.injEq] at hm
          subst hm
          rcases List.mem_cons.mp hv with rfl | hv'
          · exact le_max_left _ _
          · exact le_trans (ih htl v hv') (le_max_right _ _)

theorem mem_of_maxOrder {l : List Video} {m : Int} (hm : maxOrder l = some m) :
    ∃ v ∈ l, v.order = m := by
  induction l generalizing m with
  | nil => simp [maxOrder] at hm
  | cons hd tl ih =>
      simp only [maxOrder] at hm
      cases htl : maxOrder tl with
      | none =>
          simp only [htl, Option.some.injEq] at hm
          exact ⟨hd, List.mem_cons_self _ _, hm⟩
      | some m' =>
          simp only [htl, Option.some.injEq] at hm
          rcases le_total hd.order m' with h | h
          · obtain ⟨v, hv, hvm⟩ := ih htl
            refine ⟨v, List.mem_cons_of_mem _ hv, ?_⟩
            rw [hvm, ← hm, max_eq_right h]
          · exact ⟨hd, List.mem_cons_self _ _, by rw [← hm, max_eq_left h]⟩

end DriveSync

namespace DriveSync

-- Concrete states used by counterexamples (one room "ABCDEF" in the DB,
-- one playlist entry with youtubeId "a", in-memory state seeded idle).
def exDb : Db :=
  ⟨[⟨"rid1", "ABCDEF", none, false, 0⟩],
   [⟨"vid1", "a", "T1", "u1", "alice", false, 0, "rid1"⟩]⟩

def exSt : ServerState :=
  ⟨[("ABCDEF", [⟨7, "alice", true⟩])], [("ABCDEF", ⟨none, false, 0⟩)], [], []⟩

/-- C3: the server's `switch` has no `ADD_VIDEOS` case, so every
`ADD_VIDEOS` message — even a non-empty batch for an existing room — falls
to the `default` branch: the sender gets `ERROR "Unknown message type"`
and neither the in-memory state nor the durable store changes. -/
theorem addVideos_rejected_as_unknown_type (ws : Nat) (rc : String)
    (vs : List VideoInput) (uid : String) (now : Int) (fid : String)
    (st : ServerState) (db : Db) :
    handleMessage ws (.addVideos rc vs uid) now fid st db
      = (st, db, [⟨ws, .error "Unknown message type"⟩]) := rfl

/-- C1 counterexample: a room whose `currentVideoId` (here *none*) matches
no playlist entry and whose playlist is non-empty.  The claim predicts the
terminal state `(none, false, 0)`; `NEXT_VIDEO` instead starts the first
playlist entry, because `findIndex` returns `-1` and `allVideos[-1 + 1]`
is the first element. -/
theorem nextVideo_unknown_plays_first_counterexample :
    alookup (handleMessage 7 (.nextVideo "ABCDEF") 0 "x" exSt exDb).1.roomStates
        "ABCDEF" = some ⟨some "a", true, 0⟩ ∧
    alookup (handleMessage 7 (.nextVideo "ABCDEF") 0 "x" exSt exDb).1.roomStates
        "ABCDEF" ≠ some ⟨none, false, 0⟩ := by
  constructor <;> decide

/-- C2 counterexample: `PLAY` on a room whose `currentVideoId` is *none*
sets `isPlaying := true`, so the claimed invariant is not preserved by the
PLAY transition. -/
theorem play_breaks_idle_invariant_counterexample :
    alookup (handleMessage 7 (.play "ABCDEF") 5 "x" exSt exDb).1.roomStates
        "ABCDEF" = some ⟨none, true, 0⟩ := by
  decide

/-- C4 counterexample: connection 9 has never sent `JOIN` (the server
state is empty), yet its `PLAY` is not answered with `ERROR "Not joined"`
(no message is sent at all) and it does change server state (the
play/pause cooldown timestamp is recorded). -/
theorem no_not_joined_error_counterexample :
    (handleMessage 9 (.play "ABCDEF") 0 "x" ⟨[], [], [], []⟩ exDb).2.2 = [] ∧
    (handleMessage 9 (.play "ABCDEF") 0 "x" ⟨[], [], [], []⟩ exDb).1.playPauseCooldown
      = [("ABCDEF", 0)] := by
  constructor <;> decide

/-- C5 counterexample: `NEXT_VIDEO` for a code with no durable room sends
nothing back to the sender — in particular no `ERROR "Room not found"`. -/
theorem nextVideo_unknown_room_silent_counterexample :
    (handleMessage 9 (.nextVideo "ZZZZZZ") 0 "x" ⟨[], [], [], []⟩ exDb).2.2 = [] := by
  decide

-- -------------------------------------------------------------------
-- C9: reconnection backoff
-- -------------------------------------------------------------------

theorem foldl_replicate_retryFired (k m : Nat) :
    List.foldl stepRetryCount k (List.replicate m .retryFired) = k + m := by
  induction m generalizing k with
  | zero => simp
  | succ m ih =>
      simp only [List.replicate_succ, List.foldl_cons, stepRetryCount, ih]
      omega

/-- C9: after a successful connect (`opened`) followed by `n − 1` failed
attempts (retry-timer firings), the retry counter reads `n − 1`, so the
delay `scheduleRetry` computes before the `n`-th attempt is
`min(1000·2^(n−1), 30000)`, which always lies in `[1000, 30000]`; a
successful connect resets the counter to 0, and the delay computed at
counter 0 is 1000 ms. -/
theorem reconnect_backoff_bound (n : Nat) (_hn : 1 ≤ n) (init : Nat)
    (evs : List SockEvent) :
    runRetryCount init (evs ++ .opened :: List.replicate (n - 1) .retryFired)
      = n - 1 ∧
    scheduleRetryDelay (n - 1) = min (1000 * 2 ^ (n - 1)) 30000 ∧
    1000 ≤ scheduleRetryDelay (n - 1) ∧
    scheduleRetryDelay (n - 1) ≤ 30000 ∧
    runRetryCount init (evs ++ [.opened]) = 0 ∧
    scheduleRetryDelay 0 = 1000 := by
  refine ⟨?_, rfl, ?_, min_le_right _ _, ?_, by decide⟩
  · simp [runRetryCount, List.foldl_append, stepRetryCount,
      foldl_replicate_retryFired]
  · refine le_min ?_ (by norm_num [MAX_RETRY_DELAY])
    calc (1000 : Nat) = 1000 * 1 := (mul_one _).symm
    _ ≤ 1000 * 2 ^ (n - 1) := Nat.mul_le_mul (le_refl 1000) Nat.one_le_two_pow
  · simp [runRetryCount, List.foldl_append, stepRetryCount]

/-- Witness for `reconnect_backoff_bound` at `n = 6`. -/
theorem reconnect_backoff_bound_witness :
    runRetryCount 3 ([.retryFired] ++ .opened :: List.replicate (6 - 1) .retryFired)
      = 6 - 1 ∧
    scheduleRetryDelay (6 - 1) = min (1000 * 2 ^ (6 - 1)) 30000 ∧
    1000 ≤ scheduleRetryDelay (6 - 1) ∧
    scheduleRetryDelay (6 - 1) ≤ 30000 ∧
    runRetryCount 3 ([.retryFired] ++ [.opened]) = 0 ∧
    scheduleRetryDelay 0 = 1000 :=
  reconnect_backoff_bound 6 (by decide) 3 [.retryFired]

end DriveSync

namespace DriveSync

/-- C4 (amended): the server keeps no record of which connections have
sent `JOIN`; every message is processed the same way regardless, and no
handler branch ever replies `ERROR "Not joined"` — that error does not
exist in the protocol the code implements. -/
theorem no_not_joined_error_ever (ws : Nat) (msg : Msg) (now : Int)
    (fid : String) (st : ServerState) (db : Db) :
    ∀ e ∈ (handleMessage ws msg now fid st db).2.2,
      e.msg ≠ OutMsg.error "Not joined" := by
  intro e he
  have closer : ∀ (m : OutMsg), e.msg = m →
      m ≠ OutMsg.error "Not joined" → e.msg ≠ OutMsg.error "Not joined" := by
    intro m h1 h2; rw [h1]; exact h2
  cases msg with
  | ping =>
      simp only [handleMessage] at he
      exact closer _ (msg_of_mem_sendFx he) (by decide)
  | join rid uid role =>
      simp only [handleMessage] at he
      split at he
      · exact closer _ (msg_of_mem_sendFx he) (by decide)
      · exact closer _ (msg_of_mem_sendFx he) (by simp [buildSyncState])
  | addVideo rid vi uid =>
      simp only [handleMessage] at he
      split at he
      · exact closer _ (msg_of_mem_sendFx he) (by decide)
      · split at he
        · split at he
          · rcases List.mem_append.mp he with h | h
            · exact closer _ (msg_of_mem_broadcastAllFx h) (by simp)
            · exact closer _ (msg_of_mem_broadcastAllFx h) (by simp)
          · exact closer _ (msg_of_mem_broadcastAllFx he) (by simp)
        · exact closer _ (msg_of_mem_broadcastAllFx he) (by simp)
  | play rid =>
      simp only [handleMessage] at he
      exact closer _ (msg_of_mem_broadcastAllFx he) (by simp)
  | pause rid =>
      simp only [handleMessage] at he
      exact closer _ (msg_of_mem_broadcastAllFx he) (by simp)
  | syncTime rid t p =>
      simp only [handleMessage] at he
      exact closer _ (msg_of_mem_broadcastExceptFx he) (by simp)
  | nextVideo rid =>
      simp only [handleMessage] at he
      split at he
      · simp at he
      · rcases List.mem_append.mp he with h | h
        · split at h
          · exact closer _ (msg_of_mem_broadcastAllFx h) (by simp)
          · exact closer _ (msg_of_mem_broadcastAllFx h) (by simp)
          · simp at h
        · exact closer _ (msg_of_mem_broadcastAllFx h) (by simp)
  | removeVideo rid vid =>
      simp only [handleMessage] at he
      split at he
      · simp at he
      · split at he
        · exact closer _ (msg_of_mem_broadcastAllFx he) (by simp)
        · exact closer _ (msg_of_mem_sendFx he) (by decide)
  | selectVideo rid y =>
      simp only [handleMessage] at he
      exact closer _ (msg_of_mem_broadcastAllFx he) (by simp)
  | addVideos rid vs uid =>
      simp only [handleMessage] at he
      exact closer _ (msg_of_mem_sendFx he) (by decide)

/-- Witness for `no_not_joined_error_ever` at a concrete message. -/
theorem no_not_joined_error_ever_witness :
    (⟨9, OutMsg.pong⟩ : Effect) ∈
      (handleMessage 9 .ping 0 "x" ⟨[], [], [], []⟩ exDb).2.2 ∧
    (⟨9, OutMsg.pong⟩ : Effect).msg ≠ OutMsg.error "Not joined" :=
  ⟨by decide,
   no_not_joined_error_ever 9 .ping 0 "x" ⟨[], [], [], []⟩ exDb _ (by decide)⟩

end DriveSync

namespace DriveSync

/-- C5 (amended): for a mutation naming a room code with no durable room
(and no in-memory presence), only `ADD_VIDEO` answers
`ERROR "Room not found"`; `NEXT_VIDEO`, `REMOVE_VIDEO` and `SELECT_VIDEO`
silently do nothing; `PLAY`, `PAUSE` and `SYNC_TIME` send no error and no
broadcast and leave the playback states and the durable store unchanged,
though `PLAY` and `PAUSE` each record a play/pause cooldown timestamp for
the unknown code, and `SYNC_TIME` records a durable-write throttle
timestamp for it exactly when at least `SYNC_THROTTLE_MS` (5000 ms) have
passed since that code's last recorded write, leaving the throttle map
unchanged otherwise. -/
theorem unknown_room_behavior (st : ServerState) (db : Db) (rc : String)
    (ws : Nat) (now : Int) (fid : String)
    (hroom : findRoomByCode db rc = none)
    (hmem : alookup st.rooms rc = none)
    (hstate : alookup st.roomStates rc = none) :
    (∀ vi uid, handleMessage ws (.addVideo rc vi uid) now fid st db
        = (st, db, [⟨ws, .error "Room not found"⟩])) ∧
    handleMessage ws (.nextVideo rc) now fid st db = (st, db, []) ∧
    (∀ vid, handleMessage ws (.removeVideo rc vid) now fid st db = (st, db, [])) ∧
    (∀ y, handleMessage ws (.selectVideo rc y) now fid st db = (st, db, [])) ∧
    ((handleMessage ws (.play rc) now fid st db).1.roomStates = st.roomStates ∧
      (handleMessage ws (.play rc) now fid st db).2.1 = db ∧
      (handleMessage ws (.play rc) now fid st db).2.2 = [] ∧
      (handleMessage ws (.play rc) now fid st db).1.playPauseCooldown
        = aset st.playPauseCooldown rc now) ∧
    ((handleMessage ws (.pause rc) now fid st db).1.roomStates = st.roomStates ∧
      (handleMessage ws (.pause rc) now fid st db).2.1 = db ∧
      (handleMessage ws (.pause rc) now fid st db).2.2 = [] ∧
      (handleMessage ws (.pause rc) now fid st db).1.playPauseCooldown
        = aset st.playPauseCooldown rc now) ∧
    (∀ t p,
      (handleMessage ws (.syncTime rc t p) now fid st db).1.roomStates
        = st.roomStates ∧
      (handleMessage ws (.syncTime rc t p) now fid st db).2.1 = db ∧
      (handleMessage ws (.syncTime rc t p) now fid st db).2.2 = [] ∧
      (SYNC_THROTTLE_MS ≤ now - (alookup st.lastDbWrite rc).getD 0 →
        (handleMessage ws (.syncTime rc t p) now fid st db).1.lastDbWrite
          = aset st.lastDbWrite rc now) ∧
      (now - (alookup st.lastDbWrite rc).getD 0 < SYNC_THROTTLE_MS →
        (handleMessage ws (.syncTime rc t p) now fid st db).1.lastDbWrite
          = st.lastDbWrite)) := by
  refine ⟨?_, ?_, ?_, ?_, ?_, ?_, ?_⟩
  · intro vi uid; simp [handleMessage, hroom, sendFx]
  · simp [handleMessage, hroom]
  · intro vid; simp [handleMessage, hroom]
  · intro y; simp [handleMessage, hstate, broadcastAllFx, hmem]
  · refine ⟨?_, ?_, ?_, ?_⟩ <;> simp [handleMessage, hstate, broadcastAllFx, hmem]
  · refine ⟨?_, ?_, ?_, ?_⟩ <;> simp [handleMessage, hstate, broadcastAllFx, hmem]
  · intro t p
    refine ⟨?_, ?_, ?_, ?_, ?_⟩
    case _ | _ | _ =>
      simp only [handleMessage, hstate]
      split <;> simp [persistRoomState, hstate, broadcastExceptFx, hmem]
    · intro hthr
      simp only [handleMessage, hstate]
      rw [if_pos hthr]
    · intro hthr
      have hnot : ¬(now - (alookup st.lastDbWrite rc).getD 0 ≥ SYNC_THROTTLE_MS) :=
        not_le.mpr hthr
      simp only [handleMessage, hstate]
      rw [if_neg hnot]

/-- Witness for `unknown_room_behavior`: room code "ZZZZZZ" is not in the
durable store. -/
theorem unknown_room_behavior_witness :
    findRoomByCode exDb "ZZZZZZ" = none ∧
    handleMessage 9 (.nextVideo "ZZZZZZ") 0 "x" ⟨[], [], [], []⟩ exDb
      = (⟨[], [], [], []⟩, exDb, []) :=
  ⟨by decide,
   (unknown_room_behavior ⟨[], [], [], []⟩ exDb "ZZZZZZ" 9 0 "x"
      (by decide) (by decide) (by decide)).2.1⟩

end DriveSync

namespace DriveSync

/-- The claimed per-room invariant: an idle room (`currentVideoId = none`)
is paused at position 0. -/
def StateInv (s : RoomState) : Prop :=
  s.currentVideoId = none → s.isPlaying = false ∧ s.currentTime = 0

/-- The invariant over the whole `roomStates` map. -/
def AllInv (l : List (String × RoomState)) : Prop :=
  ∀ rc s, alookup l rc = some s → StateInv s

theorem allInv_aset {l : List (String × RoomState)} {k : String}
    {ns : RoomState} (h : AllInv l) (hns : StateInv ns) :
    AllInv (aset l k ns) := by
  intro rc s hs
  rw [alookup_aset] at hs
  by_cases hk : rc = k
  · rw [if_pos hk] at hs
    cases hs
    exact hns
  · rw [if_neg hk] at hs
    exact h rc s hs

/-- C2 (amended): the idle invariant is preserved by `ADD_VIDEO`,
`SELECT_VIDEO`, `NEXT_VIDEO` and `PAUSE`, but not by `PLAY` or
`SYNC_TIME`: a `PLAY` sets `isPlaying := true` for any room that has an
in-memory state, even one with `currentVideoId = none`, and a
`SYNC_TIME(t, p)` overwrites `currentTime` with `t` regardless of
`currentVideoId`, keeping `isPlaying` while in cooldown and overwriting
it with `p` once out of cooldown. -/
theorem idle_invariant_partially_preserved (st : ServerState) (db : Db)
    (ws : Nat) (now : Int) (fid : String) (hinv : AllInv st.roomStates) :
    (∀ rc vi uid,
      AllInv (handleMessage ws (.addVideo rc vi uid) now fid st db).1.roomStates) ∧
    (∀ rc y,
      AllInv (handleMessage ws (.selectVideo rc y) now fid st db).1.roomStates) ∧
    (∀ rc,
      AllInv (handleMessage ws (.nextVideo rc) now fid st db).1.roomStates) ∧
    (∀ rc,
      AllInv (handleMessage ws (.pause rc) now fid st db).1.roomStates) ∧
    (∀ rc s, alookup st.roomStates rc = some s →
      alookup (handleMessage ws (.play rc) now fid st db).1.roomStates rc
        = some ⟨s.currentVideoId, true, s.currentTime⟩) ∧
    (∀ rc s t p, alookup st.roomStates rc = some s →
      (now - (alookup st.playPauseCooldown rc).getD 0 < PLAY_PAUSE_COOLDOWN_MS →
        alookup (handleMessage ws (.syncTime rc t p) now fid st db).1.roomStates rc
          = some ⟨s.currentVideoId, s.isPlaying, t⟩) ∧
      (PLAY_PAUSE_COOLDOWN_MS ≤ now - (alookup st.playPauseCooldown rc).getD 0 →
        alookup (handleMessage ws (.syncTime rc t p) now fid st db).1.roomStates rc
          = some ⟨s.currentVideoId, p, t⟩)) := by
  refine ⟨?_, ?_, ?_, ?_, ?_, ?_⟩
  · intro rc vi uid
    simp only [handleMessage]
    split
    · exact hinv
    · split
      · split
        · exact allInv_aset hinv (by intro h; simp at h)
        · exact hinv
      · exact hinv
  · intro rc y
    simp only [handleMessage]
    split
    · exact allInv_aset hinv (by intro h; simp at h)
    · exact hinv
  · intro rc
    simp only [handleMessage]
    split
    · exact hinv
    · split
      · exact allInv_aset hinv (by intro h; simp at h)
      · exact allInv_aset hinv (by intro _; exact ⟨rfl, rfl⟩)
      · exact hinv
  · intro rc
    simp only [handleMessage]
    split
    · next state heq =>
        refine allInv_aset hinv ?_
        intro h
        exact ⟨rfl, (hinv rc state heq h).2⟩
    · exact hinv
  · intro rc s hstate
    simp only [handleMessage, hstate]
    exact alookup_aset_self _ _ _
  · intro rc s t p hstate
    constructor
    · intro hlt
      simp only [handleMessage, hstate, hlt, if_true]
      split <;> simp [alookup_aset_self]
    · intro hge
      have hnot : ¬(now - (alookup st.playPauseCooldown rc).getD 0
          < PLAY_PAUSE_COOLDOWN_MS) := not_lt.mpr hge
      simp only [handleMessage, hstate, hnot, if_false]
      split <;> simp [alookup_aset_self]

/-- Witness for `idle_invariant_partially_preserved`: the invariant holds
in `exSt` and the theorem applies to it. -/
theorem idle_invariant_partially_preserved_witness :
    AllInv (handleMessage 7 (.pause "ABCDEF") 0 "x" exSt exDb).1.roomStates := by
  have hinv : AllInv exSt.roomStates := by
    intro rc s h
    simp only [exSt, alookup] at h
    split at h
    · cases h
      intro _
      exact ⟨rfl, rfl⟩
    · cases h
  exact (idle_invariant_partially_preserved exSt exDb 7 0 "x" hinv).2.2.2.1 "ABCDEF"

end DriveSync

namespace DriveSync

/-- C6: if a `SYNC_TIME(t, p)` is processed at wall-clock `t2` and the
latest `PLAY` (`isPlay = true`) or `PAUSE` (`isPlay = false`) for the same
room was processed at `t1`, then when `t2 − t1 < 3000` the room keeps the
`isPlaying` bit the command set (the host's `p` is ignored) while
`currentTime` is updated to `t`; when `t2 − t1 ≥ 3000` (equality included)
the host's `p` is applied.  `db1` is whatever the durable store holds when
the `SYNC_TIME` arrives (it does not affect the in-memory state). -/
theorem syncTime_cooldown (st : ServerState) (db db1 : Db) (rc : String)
    (s : RoomState) (ws1 ws2 : Nat) (t1 t2 : Int) (fid1 fid2 : String)
    (t : Rat) (p isPlay : Bool)
    (hstate : alookup st.roomStates rc = some s) :
    (t2 - t1 < 3000 →
      alookup (handleMessage ws2 (.syncTime rc t p) t2 fid2
          (handleMessage ws1 (if isPlay then .play rc else .pause rc) t1 fid1
            st db).1 db1).1.roomStates rc
        = some ⟨s.currentVideoId, isPlay, t⟩) ∧
    (3000 ≤ t2 - t1 →
      alookup (handleMessage ws2 (.syncTime rc t p) t2 fid2
          (handleMessage ws1 (if isPlay then .play rc else .pause rc) t1 fid1
            st db).1 db1).1.roomStates rc
        = some ⟨s.currentVideoId, p, t⟩) := by
  have hmid : (handleMessage ws1 (if isPlay then .play rc else .pause rc) t1 fid1
      st db).1
      = { st with
          roomStates := aset st.roomStates rc ⟨s.currentVideoId, isPlay, s.currentTime⟩,
          playPauseCooldown := aset st.playPauseCooldown rc t1 } := by
    cases isPlay <;> simp [handleMessage, hstate]
  rw [hmid]
  constructor
  · intro hlt
    simp only [handleMessage, alookup_aset_self, Option.getD_some,
      PLAY_PAUSE_COOLDOWN_MS, hlt, if_true]
    split <;> simp [alookup_aset_self]
  · intro hge
    have hnot : ¬(t2 - t1 < 3000) := not_lt.mpr hge
    simp only [handleMessage, alookup_aset_self, Option.getD_some,
      PLAY_PAUSE_COOLDOWN_MS, hnot, if_false]
    split <;> simp [alookup_aset_self]

/-- Witness for `syncTime_cooldown`: a `PLAY` at 0 ms followed by a
`SYNC_TIME(7.5, false)` at 500 ms keeps `isPlaying = true`. -/
theorem syncTime_cooldown_witness :
    ((500 : Int) - 0 < 3000 →
      alookup (handleMessage 8 (.syncTime "ABCDEF" (15/2) false) 500 "y"
          (handleMessage 7 (if true then .play "ABCDEF" else .pause "ABCDEF")
            0 "x" exSt exDb).1 exDb).1.roomStates "ABCDEF"
        = some ⟨none, true, 15/2⟩) ∧
    ((3000 : Int) ≤ 500 - 0 →
      alookup (handleMessage 8 (.syncTime "ABCDEF" (15/2) false) 500 "y"
          (handleMessage 7 (if true then .play "ABCDEF" else .pause "ABCDEF")
            0 "x" exSt exDb).1 exDb).1.roomStates "ABCDEF"
        = some ⟨none, false, 15/2⟩) :=
  syncTime_cooldown exSt exDb exDb "ABCDEF" ⟨none, false, 0⟩ 7 8 0 500 "x" "y"
    (15/2) false true rfl

end DriveSync

namespace DriveSync

theorem maxOrder_eq_none_iff (l : List Video) : maxOrder l = none ↔ l = [] := by
  cases l with
  | nil => simp [maxOrder]
  | cons hd tl =>
      simp only [maxOrder]
      cases maxOrder tl <;> simp

/-- C7: `ADD_VIDEO` on a room whose in-memory `currentVideoId` is *none*
auto-starts the added video: the room state becomes
`(some video.youtubeId, true, 0)`, the created row is appended to the
`Video` table with an `order` strictly above every existing order of the
room (`max + 1`, or `0` on an empty playlist), and every client of the
room is sent `PLAY_VIDEO` and then `PLAYLIST_UPDATE`, in that order. -/
theorem addVideo_autostart (st : ServerState) (db : Db) (rc : String)
    (room : DbRoom) (s : RoomState) (clients : List Client) (ws : Nat)
    (now : Int) (fid : String) (vi : VideoInput) (uid : String)
    (hroom : findRoomByCode db rc = some room)
    (hstate : alookup st.roomStates rc = some s)
    (hnone : s.currentVideoId = none)
    (hclients : alookup st.rooms rc = some clients) :
    alookup (handleMessage ws (.addVideo rc vi uid) now fid st db).1.roomStates rc
      = some ⟨some vi.youtubeId, true, 0⟩ ∧
    (∃ newOrder : Int,
      (handleMessage ws (.addVideo rc vi uid) now fid st db).2.1.videos
        = db.videos ++ [⟨fid, vi.youtubeId, vi.title, vi.thumbnail, uid, false,
            newOrder, room.id⟩] ∧
      (∀ v ∈ db.videos, v.roomId = room.id → v.order < newOrder) ∧
      ((db.videos.filter fun v => decide (v.roomId = room.id)) = [] →
        newOrder = 0) ∧
      ((db.videos.filter fun v => decide (v.roomId = room.id)) ≠ [] →
        ∃ v ∈ db.videos, v.roomId = room.id ∧ newOrder = v.order + 1)) ∧
    (handleMessage ws (.addVideo rc vi uid) now fid st db).2.2
      = clients.map (fun c => ⟨c.wsId, .playVideo (some vi.youtubeId)⟩) ++
        clients.map (fun c => ⟨c.wsId, .playlistUpdate
          (getPlaylist (handleMessage ws (.addVideo rc vi uid) now fid st db).2.1
            room.id)⟩) := by
  have hfalsy : jsFalsy s.currentVideoId = true := by rw [hnone]; rfl
  refine ⟨?_, ?_, ?_⟩
  · simp only [handleMessage, hroom, hstate, hfalsy, if_true]
    exact alookup_aset_self _ _ _
  · simp only [handleMessage, hroom, hstate, hfalsy, if_true]
    cases hmax : maxOrder (db.videos.filter fun v => decide (v.roomId = room.id)) with
    | none =>
        simp only [hmax]
        rw [maxOrder_eq_none_iff] at hmax
        refine ⟨0, ?_, ?_, fun _ => rfl, fun hne => absurd hmax hne⟩
        · simp only [persistRoomState, alookup_aset_self]
          split <;> rfl
        · intro v hv hvroom
          exfalso
          have hmem : v ∈ (db.videos.filter fun v => decide (v.roomId = room.id)) :=
            List.mem_filter.mpr ⟨hv, by simp [hvroom]⟩
          rw [hmax] at hmem
          simp at hmem
    | some m =>
        simp only [hmax]
        refine ⟨m + 1, ?_, ?_, ?_, ?_⟩
        · simp only [persistRoomState, alookup_aset_self]
          split <;> rfl
        · intro v hv hvroom
          have hmem : v ∈ (db.videos.filter fun v => decide (v.roomId = room.id)) :=
            List.mem_filter.mpr ⟨hv, by simp [hvroom]⟩
          have := le_of_mem_maxOrder hmax v hmem
          omega
        · intro hempty
          rw [← maxOrder_eq_none_iff] at hempty
          rw [hempty] at hmax
          cases hmax
        · intro _
          obtain ⟨v, hv, hvm⟩ := mem_of_maxOrder hmax
          have hv' := List.mem_filter.mp hv
          exact ⟨v, hv'.1, by simpa using hv'.2, by omega⟩
  · simp only [handleMessage, hroom, hstate, hfalsy, if_true]
    simp [broadcastAllFx, hclients]

/-- Witness for `addVideo_autostart` on the concrete idle room. -/
theorem addVideo_autostart_witness :
    alookup (handleMessage 7 (.addVideo "ABCDEF" ⟨"b", "T2", "u2"⟩ "bob")
        0 "fid9" exSt exDb).1.roomStates "ABCDEF" = some ⟨some "b", true, 0⟩ :=
  (addVideo_autostart exSt exDb "ABCDEF" ⟨"rid1", "ABCDEF", none, false, 0⟩
    ⟨none, false, 0⟩ [⟨7, "alice", true⟩] 7 0 "fid9" ⟨"b", "T2", "u2"⟩ "bob"
    rfl rfl rfl rfl).1

end DriveSync

namespace DriveSync

/-- C8: `REMOVE_VIDEO` on an existing room never touches the in-memory
server state (in particular the room's playback triple survives even when
the removed entry is the one currently playing); when `videoId` names an
existing `Video` row the row is deleted and every client of the room is
sent `PLAYLIST_UPDATE`; when it names no row the sender alone receives
`ERROR "Video not found"` and the store is unchanged. -/
theorem removeVideo_frame (st : ServerState) (db : Db) (rc : String)
    (room : DbRoom) (clients : List Client) (ws : Nat) (now : Int)
    (fid : String) (videoId : String)
    (hroom : findRoomByCode db rc = some room)
    (hclients : alookup st.rooms rc = some clients) :
    (handleMessage ws (.removeVideo rc videoId) now fid st db).1 = st ∧
    ((∃ v ∈ db.videos, v.id = videoId) →
      (handleMessage ws (.removeVideo rc videoId) now fid st db).2.1
        = { db with videos := db.videos.filter fun v => decide (v.id ≠ videoId) } ∧
      (handleMessage ws (.removeVideo rc videoId) now fid st db).2.2
        = clients.map (fun c => ⟨c.wsId, .playlistUpdate
            (getPlaylist
              (handleMessage ws (.removeVideo rc videoId) now fid st db).2.1
              room.id)⟩)) ∧
    ((∀ v ∈ db.videos, v.id ≠ videoId) →
      (handleMessage ws (.removeVideo rc videoId) now fid st db).2.1 = db ∧
      (handleMessage ws (.removeVideo rc videoId) now fid st db).2.2
        = [⟨ws, .error "Video not found"⟩]) := by
  refine ⟨?_, ?_, ?_⟩
  · simp only [handleMessage, hroom]
    split <;> rfl
  · intro hex
    have hany : (db.videos.any fun v => decide (v.id = videoId)) = true := by
      rw [List.any_eq_true]
      obtain ⟨v, hv, hid⟩ := hex
      exact ⟨v, hv, by simp [hid]⟩
    simp only [handleMessage, hroom, hany, if_true]
    exact ⟨by trivial, by simp [broadcastAllFx, hclients]⟩
  · intro hnone
    have hany : (db.videos.any fun v => decide (v.id = videoId)) = false := by
      rw [List.any_eq_false]
      intro v hv
      simp [hnone v hv]
    simp only [handleMessage, hroom, hany, Bool.false_eq_true, if_false]
    exact ⟨by trivial, by trivial⟩

/-- Witness for `removeVideo_frame`: removing the existing row "vid1". -/
theorem removeVideo_frame_witness :
    (handleMessage 7 (.removeVideo "ABCDEF" "vid1") 0 "x" exSt exDb).1 = exSt ∧
    ((∃ v ∈ exDb.videos, v.id = "vid1") →
      (handleMessage 7 (.removeVideo "ABCDEF" "vid1") 0 "x" exSt exDb).2.1
        = { exDb with videos := exDb.videos.filter fun v => decide (v.id ≠ "vid1") } ∧
      (handleMessage 7 (.removeVideo "ABCDEF" "vid1") 0 "x" exSt exDb).2.2
        = ([⟨7, "alice", true⟩] : List Client).map (fun c => ⟨c.wsId,
            .playlistUpdate (getPlaylist
              (handleMessage 7 (.removeVideo "ABCDEF" "vid1") 0 "x" exSt exDb).2.1
              "rid1")⟩)) ∧
    ((∀ v ∈ exDb.videos, v.id ≠ "vid1") →
      (handleMessage 7 (.removeVideo "ABCDEF" "vid1") 0 "x" exSt exDb).2.1 = exDb ∧
      (handleMessage 7 (.removeVideo "ABCDEF" "vid1") 0 "x" exSt exDb).2.2
        = [⟨7, .error "Video not found"⟩]) :=
  removeVideo_frame exSt exDb "ABCDEF" ⟨"rid1", "ABCDEF", none, false, 0⟩
    [⟨7, "alice", true⟩] 7 0 "x" "vid1" rfl rfl

end DriveSync

namespace DriveSync

theorem findIndexJs_eq_neg_one {α : Type} (p : α → Bool) (l : List α)
    (h : ∀ x ∈ l, p x = false) : findIndexJs p l = -1 := by
  induction l with
  | nil => rfl
  | cons hd tl ih =>
      simp only [findIndexJs, h hd (List.mem_cons_self _ _), Bool.false_eq_true,
        if_false]
      rw [ih (fun x hx => h x (List.mem_cons_of_mem _ hx))]
      rfl

/-- C1 (amended): `NEXT_VIDEO` plays the entry at position `idx + 1` of the
order-sorted playlist, where `idx` is the `findIndex` of the entry matching
`currentVideoId` (`-1` when nothing matches).  When that position holds an
entry `nv` the room becomes `(nv.youtubeId, true, 0)` with a `PLAY_VIDEO`
then a `PLAYLIST_UPDATE` broadcast; when it is out of range the room
becomes `(none, false, 0)` with `PLAY_VIDEO{videoId: none}` then
`PLAYLIST_UPDATE`.  In particular an *unknown* `currentVideoId` over a
non-empty playlist starts the playlist's first entry — not the claimed
terminal stop, which happens only at the end of the list or on an empty
playlist. -/
theorem nextVideo_advance (st : ServerState) (db : Db) (rc : String)
    (room : DbRoom) (s : RoomState) (clients : List Client) (pl : List Video)
    (idx : Int) (ws : Nat) (now : Int) (fid : String)
    (hroom : findRoomByCode db rc = some room)
    (hstate : alookup st.roomStates rc = some s)
    (hclients : alookup st.rooms rc = some clients)
    (hpl : getPlaylist db room.id = pl)
    (hidx : findIndexJs (fun v => decide (s.currentVideoId = some v.youtubeId)) pl
      = idx) :
    (∀ nv, pl[(idx + 1).toNat]? = some nv →
      alookup (handleMessage ws (.nextVideo rc) now fid st db).1.roomStates rc
        = some ⟨some nv.youtubeId, true, 0⟩ ∧
      (handleMessage ws (.nextVideo rc) now fid st db).2.2
        = clients.map (fun c => ⟨c.wsId, .playVideo (some nv.youtubeId)⟩) ++
          clients.map (fun c => ⟨c.wsId, .playlistUpdate
            (getPlaylist (handleMessage ws (.nextVideo rc) now fid st db).2.1
              room.id)⟩)) ∧
    (pl[(idx + 1).toNat]? = none →
      alookup (handleMessage ws (.nextVideo rc) now fid st db).1.roomStates rc
        = some ⟨none, false, 0⟩ ∧
      (handleMessage ws (.nextVideo rc) now fid st db).2.2
        = clients.map (fun c => ⟨c.wsId, .playVideo none⟩) ++
          clients.map (fun c => ⟨c.wsId, .playlistUpdate
            (getPlaylist (handleMessage ws (.nextVideo rc) now fid st db).2.1
              room.id)⟩)) ∧
    ((∀ v ∈ pl, ¬ s.currentVideoId = some v.youtubeId) →
      ∀ v₀ rest, pl = v₀ :: rest →
      alookup (handleMessage ws (.nextVideo rc) now fid st db).1.roomStates rc
        = some ⟨some v₀.youtubeId, true, 0⟩) := by
  have part1 : ∀ nv, pl[(idx + 1).toNat]? = some nv →
      alookup (handleMessage ws (.nextVideo rc) now fid st db).1.roomStates rc
        = some ⟨some nv.youtubeId, true, 0⟩ ∧
      (handleMessage ws (.nextVideo rc) now fid st db).2.2
        = clients.map (fun c => ⟨c.wsId, .playVideo (some nv.youtubeId)⟩) ++
          clients.map (fun c => ⟨c.wsId, .playlistUpdate
            (getPlaylist (handleMessage ws (.nextVideo rc) now fid st db).2.1
              room.id)⟩) := by
    intro nv hnv
    simp only [handleMessage, hroom, hstate, Option.bind, hpl, hidx, hnv]
    exact ⟨alookup_aset_self _ _ _, by simp [broadcastAllFx, hclients]⟩
  refine ⟨part1, ?_, ?_⟩
  · intro hnone
    simp only [handleMessage, hroom, hstate, Option.bind, hpl, hidx, hnone]
    exact ⟨alookup_aset_self _ _ _, by simp [broadcastAllFx, hclients]⟩
  · intro hall v₀ rest hcons
    have hidx' : idx = -1 := by
      rw [← hidx]
      exact findIndexJs_eq_neg_one _ _ (fun v hv => by
        simpa using hall v hv)
    have hget : pl[(idx + 1).toNat]? = some v₀ := by
      rw [hidx']
      simp [hcons]
    exact (part1 v₀ hget).1

/-- Witness for `nextVideo_advance`: the room is playing "a", the sole
entry, so the successor is out of range and the room stops. -/
theorem nextVideo_advance_witness :
    alookup (handleMessage 7 (.nextVideo "ABCDEF") 0 "x"
        ⟨[("ABCDEF", [⟨7, "alice", true⟩])],
         [("ABCDEF", ⟨some "a", true, 20⟩)], [], []⟩ exDb).1.roomStates "ABCDEF"
      = some ⟨none, false, 0⟩ ∧
    (handleMessage 7 (.nextVideo "ABCDEF") 0 "x"
        ⟨[("ABCDEF", [⟨7, "alice", true⟩])],
         [("ABCDEF", ⟨some "a", true, 20⟩)], [], []⟩ exDb).2.2
      = ([⟨7, "alice", true⟩] : List Client).map
          (fun c => ⟨c.wsId, .playVideo none⟩) ++
        ([⟨7, "alice", true⟩] : List Client).map
          (fun c => ⟨c.wsId, .playlistUpdate
            (getPlaylist (handleMessage 7 (.nextVideo "ABCDEF") 0 "x"
              ⟨[("ABCDEF", [⟨7, "alice", true⟩])],
               [("ABCDEF", ⟨some "a", true, 20⟩)], [], []⟩ exDb).2.1
              "rid1")⟩) :=
  (nextVideo_advance
    ⟨[("ABCDEF", [⟨7, "alice", true⟩])], [("ABCDEF", ⟨some "a", true, 20⟩)], [], []⟩
    exDb "ABCDEF" ⟨"rid1", "ABCDEF", none, false, 0⟩ ⟨some "a", true, 20⟩
    [⟨7, "alice", true⟩]
    [⟨"vid1", "a", "T1", "u1", "alice", false, 0, "rid1"⟩] 0 7 0 "x"
    rfl rfl rfl (by decide) (by decide)).2.1 (by decide)

end DriveSync

namespace DriveSync

/-- C10: when the last client of a room disconnects, `handleDisconnect`
deletes the room's client set, its in-memory playback state and its
durable-write throttle timestamp, but leaves the play/pause cooldown map
untouched.  Consequently a room garbage-collected this way and re-joined
keeps the old cooldown: a `SYNC_TIME` processed at `t2` with
`t2 − t0 < 3000` (where `t0` is the retained cooldown timestamp of the
earlier `PLAY`/`PAUSE`) still has its `isPlaying` ignored — the state
keeps the DB-seeded `isPlaying` while `currentTime` becomes `t`.  Moreover
no message handler ever deletes a cooldown entry, so the entry is
retained indefinitely. -/
theorem disconnect_cleanup_keeps_cooldown (st : ServerState) (db : Db)
    (rc : String) (c : Client) (room : DbRoom) (t0 : Int)
    (hrooms : st.rooms = [(rc, [c])])
    (hkeysS : (st.roomStates.map Prod.fst).Nodup)
    (hkeysW : (st.lastDbWrite.map Prod.fst).Nodup)
    (hcool : alookup st.playPauseCooldown rc = some t0)
    (hroom : findRoomByCode db rc = some room) :
    alookup (handleDisconnect c.wsId st).rooms rc = none ∧
    alookup (handleDisconnect c.wsId st).roomStates rc = none ∧
    alookup (handleDisconnect c.wsId st).lastDbWrite rc = none ∧
    (handleDisconnect c.wsId st).playPauseCooldown = st.playPauseCooldown ∧
    (∀ (ws2 ws3 : Nat) (uid : String) (role : Bool) (tj t2 : Int)
        (fidJ fidS : String) (t : Rat) (p : Bool),
      t2 - t0 < 3000 →
      alookup (handleMessage ws3 (.syncTime rc t p) t2 fidS
          (handleMessage ws2 (.join rc uid role) tj fidJ
            (handleDisconnect c.wsId st) db).1
          (handleMessage ws2 (.join rc uid role) tj fidJ
            (handleDisconnect c.wsId st) db).2.1).1.roomStates rc
        = some ⟨room.currentVideoId, room.isPlaying, t⟩) ∧
    (∀ (ws' : Nat) (m : Msg) (now' : Int) (fid' : String) (db' : Db)
        (k : String),
      (alookup st.playPauseCooldown k).isSome →
      (alookup (handleMessage ws' m now' fid' st db').1.playPauseCooldown
        k).isSome) := by
  have hS := alookup_aerase_self st.roomStates rc hkeysS
  have hW := alookup_aerase_self st.lastDbWrite rc hkeysW
  have hst' : handleDisconnect c.wsId st
      = { st with
          rooms := []
          roomStates := aerase st.roomStates rc
          lastDbWrite := aerase st.lastDbWrite rc } := by
    simp [handleDisconnect, hrooms, findClientRoom, alookup, removeFirstWs,
      aerase]
  refine ⟨?_, ?_, ?_, ?_, ?_, ?_⟩
  · rw [hst']; rfl
  · rw [hst']; exact hS
  · rw [hst']; exact hW
  · rw [hst']
  · intro ws2 ws3 uid role tj t2 fidJ fidS t p hlt
    rw [hst']
    simp only [handleMessage, hroom, alookup, hS, Option.isSome_none,
      Bool.false_eq_true, if_false, Option.isSome_some, if_true,
      alookup_aset_self, Option.getD_some, hcool,
      PLAY_PAUSE_COOLDOWN_MS, hlt, if_true]
    split <;> simp [alookup_aset_self]
  · intro ws' m now' fid' db' k h
    cases m <;> simp only [handleMessage] <;> (repeat' split) <;>
      first
        | exact h
        | exact isSome_alookup_aset _ _ _ _ h

end DriveSync

namespace DriveSync

/-- Concrete server state for the disconnect witness: one room with one
client, an in-memory playback state, a throttle timestamp and a cooldown
timestamp recorded at 100 ms. -/
def c10St : ServerState :=
  ⟨[("ABCDEF", [⟨7, "alice", true⟩])], [("ABCDEF", ⟨some "a", true, 9⟩)],
   [("ABCDEF", 50)], [("ABCDEF", 100)]⟩

/-- Witness for `disconnect_cleanup_keeps_cooldown` on `c10St`. -/
theorem disconnect_cleanup_keeps_cooldown_witness :
    alookup (handleDisconnect 7 c10St).rooms "ABCDEF" = none ∧
    alookup (handleDisconnect 7 c10St).roomStates "ABCDEF" = none ∧
    alookup (handleDisconnect 7 c10St).lastDbWrite "ABCDEF" = none ∧
    (handleDisconnect 7 c10St).playPauseCooldown = c10St.playPauseCooldown ∧
    (∀ (ws2 ws3 : Nat) (uid : String) (role : Bool) (tj t2 : Int)
        (fidJ fidS : String) (t : Rat) (p : Bool),
      t2 - 100 < 3000 →
      alookup (handleMessage ws3 (.syncTime "ABCDEF" t p) t2 fidS
          (handleMessage ws2 (.join "ABCDEF" uid role) tj fidJ
            (handleDisconnect 7 c10St) exDb).1
          (handleMessage ws2 (.join "ABCDEF" uid role) tj fidJ
            (handleDisconnect 7 c10St) exDb).2.1).1.roomStates "ABCDEF"
        = some ⟨none, false, t⟩) ∧
    (∀ (ws' : Nat) (m : Msg) (now' : Int) (fid' : String) (db' : Db)
        (k : String),
      (alookup c10St.playPauseCooldown k).isSome →
      (alookup (handleMessage ws' m now' fid' c10St db').1.playPauseCooldown
        k).isSome) :=
  disconnect_cleanup_keeps_cooldown c10St exDb "ABCDEF" ⟨7, "alice", true⟩
    ⟨"rid1", "ABCDEF", none, false, 0⟩ 100 rfl (by decide) (by decide) rfl rfl

end DriveSync
